import Mathlib

/-
Shallow embedding of the Oroucle casino program (src/casino/src/state.rs,
src/casino/src/processor.rs).

Machine integers: the program uses u64 (and u16 for the instruction sysvar
counters).  We embed them as Nat.  Solana programs are deployed as release
builds, where plain Rust arithmetic wraps modulo 2^64; the source's bare
`a * b` multiplications are therefore embedded as `(a * b) % 2^64`
(`wrapping_mul`), while `checked_add` / `checked_mul` are embedded as
Option-returning guards against 2^64.

Accounts and addresses: `Pubkey::find_program_address` /
`create_program_address` are SHA-256 based and not embedded.  Every
`assert_keys_equal` / `assert_owned_by` / `assert_is_ata` check made by an
operation (the "assertion collaborator" of spec section 4.1/6, whose
source, validation_utils.rs, is not under src/) is modelled from the spec
as a boolean gate: a `checks_ok` / `keys_ok` parameter that aborts the
operation with a generic validation error exactly at the program point
where the source performs the assertion batch.  The SPL token transfer
collaborator is external; each operation's result records the amount it
asked that collaborator to move.
-/

namespace Oroucle

/-- 2^64; u64 arithmetic wraps or is checked against this modulus. -/
def U64MOD : Nat := 2 ^ 64

/-- 2^16; the instruction sysvar counters are u16. -/
def U16MOD : Nat := 2 ^ 16

/-- Embedding of Rust `u64::checked_add`. -/
def checked_add (a b : Nat) : Option Nat :=
  if a + b < U64MOD then some (a + b) else none

/-- Embedding of Rust `u64::checked_mul`. -/
def checked_mul (a b : Nat) : Option Nat :=
  if a * b < U64MOD then some (a * b) else none

/-- Embedding of a bare Rust u64 multiplication in a release build: wraps mod 2^64. -/
def wrapping_mul (a b : Nat) : Nat := (a * b) % U64MOD

/-- Embedding of the u16 expression `n - 1` in a release build: wraps mod 2^16. -/
def u16_wrapping_sub_one (n : Nat) : Nat := (n + 65535) % U16MOD

/-- The `Guess` enum of state.rs: 38 straight-up pockets followed by the
outside bets, with discriminants 0..49 (see `Guess.index`). -/
inductive Guess where
  | Zero | DoubleZero
  | R1 | B2 | R3 | B4 | R5 | B6 | R7 | B8 | R9 | B10
  | B11 | R12 | B13 | R14 | B15 | R16 | B17 | R18
  | R19 | B20 | R21 | B22 | R23 | B24 | R25 | B26 | R27 | B28
  | B29 | R30 | B31 | R32 | B33 | R34 | B35 | R36
  | Red | Black | Even | Odd
  | Col1 | Col2 | Col3
  | Dozen1 | Dozen2 | Dozen3
  | Low | High
  deriving DecidableEq, Repr, Fintype

/-- The enum discriminant of state.rs (`Zero = 0` .. `High = 49`), as the
index into the 64-slot `guesses` array used by `place_guesses`. -/
def Guess.index : Guess → Fin 64
  | .Zero => 0 | .DoubleZero => 1
  | .R1 => 2 | .B2 => 3 | .R3 => 4 | .B4 => 5 | .R5 => 6 | .B6 => 7
  | .R7 => 8 | .B8 => 9 | .R9 => 10 | .B10 => 11
  | .B11 => 12 | .R12 => 13 | .B13 => 14 | .R14 => 15 | .B15 => 16
  | .R16 => 17 | .B17 => 18 | .R18 => 19
  | .R19 => 20 | .B20 => 21 | .R21 => 22 | .B22 => 23 | .R23 => 24
  | .B24 => 25 | .R25 => 26 | .B26 => 27 | .R27 => 28 | .B28 => 29
  | .B29 => 30 | .R30 => 31 | .B31 => 32 | .R32 => 33 | .B33 => 34
  | .R34 => 35 | .B35 => 36 | .R36 => 37
  | .Red => 38 | .Black => 39 | .Even => 40 | .Odd => 41
  | .Col1 => 42 | .Col2 => 43 | .Col3 => 44
  | .Dozen1 => 45 | .Dozen2 => 46 | .Dozen3 => 47
  | .Low => 48 | .High => 49

/-- Borsh deserialization of a `Guess` from a one-byte tag, as performed by
`Guess::try_from_slice` in spin's payout loop: tags 0..49 decode, anything
else fails. -/
def Guess.ofTag : Nat → Option Guess
  | 0 => some .Zero | 1 => some .DoubleZero
  | 2 => some .R1 | 3 => some .B2 | 4 => some .R3 | 5 => some .B4
  | 6 => some .R5 | 7 => some .B6 | 8 => some .R7 | 9 => some .B8
  | 10 => some .R9 | 11 => some .B10 | 12 => some .B11 | 13 => some .R12
  | 14 => some .B13 | 15 => some .R14 | 16 => some .B15 | 17 => some .R16
  | 18 => some .B17 | 19 => some .R18 | 20 => some .R19 | 21 => some .B20
  | 22 => some .R21 | 23 => some .B22 | 24 => some .R23 | 25 => some .B24
  | 26 => some .R25 | 27 => some .B26 | 28 => some .R27 | 29 => some .B28
  | 30 => some .B29 | 31 => some .R30 | 32 => some .B31 | 33 => some .R32
  | 34 => some .B33 | 35 => some .R34 | 36 => some .B35 | 37 => some .R36
  | 38 => some .Red | 39 => some .Black | 40 => some .Even | 41 => some .Odd
  | 42 => some .Col1 | 43 => some .Col2 | 44 => some .Col3
  | 45 => some .Dozen1 | 46 => some .Dozen2 | 47 => some .Dozen3
  | 48 => some .Low | 49 => some .High
  | _ => none

/-- `is_red` of state.rs: membership in the fixed 18-element red list. -/
def is_red (number : Nat) : Bool :=
  ([1, 3, 5, 7, 9, 12, 14, 16, 18, 19, 21, 23, 25, 27, 30, 32, 34, 36] :
    List Nat).contains number

/-- `RouletteGuess` of state.rs: a bet category paired with a staked amount. -/
structure RouletteGuess where
  guess : Guess
  amount : Nat

/-- `RouletteGuess::get_payout` of state.rs, line for line.  The source's
`self.amount * k` is a bare u64 multiplication, hence `wrapping_mul`. -/
def RouletteGuess.get_payout (self : RouletteGuess) (outcome : Nat) : Nat :=
  match self.guess with
  | .Zero => if outcome == 0 then wrapping_mul self.amount 36 else 0
  | .DoubleZero => if outcome == 37 then wrapping_mul self.amount 36 else 0
  | .R1 => if outcome == 1 then wrapping_mul self.amount 36 else 0
  | .B2 => if outcome == 2 then wrapping_mul self.amount 36 else 0
  | .R3 => if outcome == 3 then wrapping_mul self.amount 36 else 0
  | .B4 => if outcome == 4 then wrapping_mul self.amount 36 else 0
  | .R5 => if outcome == 5 then wrapping_mul self.amount 36 else 0
  | .B6 => if outcome == 6 then wrapping_mul self.amount 36 else 0
  | .R7 => if outcome == 7 then wrapping_mul self.amount 36 else 0
  | .B8 => if outcome == 8 then wrapping_mul self.amount 36 else 0
  | .R9 => if outcome == 9 then wrapping_mul self.amount 36 else 0
  | .B10 => if outcome == 10 then wrapping_mul self.amount 36 else 0
  | .B11 => if outcome == 11 then wrapping_mul self.amount 36 else 0
  | .R12 => if outcome == 12 then wrapping_mul self.amount 36 else 0
  | .B13 => if outcome == 13 then wrapping_mul self.amount 36 else 0
  | .R14 => if outcome == 14 then wrapping_mul self.amount 36 else 0
  | .B15 => if outcome == 15 then wrapping_mul self.amount 36 else 0
  | .R16 => if outcome == 16 then wrapping_mul self.amount 36 else 0
  | .B17 => if outcome == 17 then wrapping_mul self.amount 36 else 0
  | .R18 => if outcome == 18 then wrapping_mul self.amount 36 else 0
  | .R19 => if outcome == 19 then wrapping_mul self.amount 36 else 0
  | .B20 => if outcome == 20 then wrapping_mul self.amount 36 else 0
  | .R21 => if outcome == 21 then wrapping_mul self.amount 36 else 0
  | .B22 => if outcome == 22 then wrapping_mul self.amount 36 else 0
  | .R23 => if outcome == 23 then wrapping_mul self.amount 36 else 0
  | .B24 => if outcome == 24 then wrapping_mul self.amount 36 else 0
  | .R25 => if outcome == 25 then wrapping_mul self.amount 36 else 0
  | .B26 => if outcome == 26 then wrapping_mul self.amount 36 else 0
  | .R27 => if outcome == 27 then wrapping_mul self.amount 36 else 0
  | .B28 => if outcome == 28 then wrapping_mul self.amount 36 else 0
  | .B29 => if outcome == 29 then wrapping_mul self.amount 36 else 0
  | .R30 => if outcome == 30 then wrapping_mul self.amount 36 else 0
  | .B31 => if outcome == 31 then wrapping_mul self.amount 36 else 0
  | .R32 => if outcome == 32 then wrapping_mul self.amount 36 else 0
  | .B33 => if outcome == 33 then wrapping_mul self.amount 36 else 0
  | .R34 => if outcome == 34 then wrapping_mul self.amount 36 else 0
  | .B35 => if outcome == 35 then wrapping_mul self.amount 36 else 0
  | .R36 => if outcome == 36 then wrapping_mul self.amount 36 else 0
  | .Red =>
      if outcome != 0 && outcome != 37 && is_red outcome then
        wrapping_mul self.amount 2
      else 0
  | .Black =>
      if outcome != 0 && outcome != 37 && !(is_red outcome) then
        wrapping_mul self.amount 2
      else 0
  | .Even => if outcome != 0 && outcome % 2 == 0 then wrapping_mul self.amount 2 else 0
  | .Odd => if outcome != 37 && outcome % 2 == 1 then wrapping_mul self.amount 2 else 0
  | .Col1 => if outcome != 37 && outcome % 3 == 1 then wrapping_mul self.amount 3 else 0
  | .Col2 => if outcome % 3 == 2 then wrapping_mul self.amount 3 else 0
  | .Col3 => if outcome != 0 && outcome % 3 == 0 then wrapping_mul self.amount 3 else 0
  | .Dozen1 =>
      if decide (0 < outcome) && decide (outcome ≤ 12) then
        wrapping_mul self.amount 3
      else 0
  | .Dozen2 =>
      if decide (12 < outcome) && decide (outcome ≤ 24) then
        wrapping_mul self.amount 3
      else 0
  | .Dozen3 =>
      if decide (24 < outcome) && decide (outcome < 37) then
        wrapping_mul self.amount 3
      else 0
  | .Low =>
      if decide (0 < outcome) && decide (outcome ≤ 18) then
        wrapping_mul self.amount 2
      else 0
  | .High =>
      if decide (18 < outcome) && decide (outcome < 37) then
        wrapping_mul self.amount 2
      else 0

/-- The winning condition of each `get_payout` arm, extracted verbatim from
the source (used to factor the stake out of the payout). -/
def code_wins (g : Guess) (o : Nat) : Bool :=
  match g with
  | .Zero => o == 0
  | .DoubleZero => o == 37
  | .R1 => o == 1
  | .B2 => o == 2
  | .R3 => o == 3
  | .B4 => o == 4
  | .R5 => o == 5
  | .B6 => o == 6
  | .R7 => o == 7
  | .B8 => o == 8
  | .R9 => o == 9
  | .B10 => o == 10
  | .B11 => o == 11
  | .R12 => o == 12
  | .B13 => o == 13
  | .R14 => o == 14
  | .B15 => o == 15
  | .R16 => o == 16
  | .B17 => o == 17
  | .R18 => o == 18
  | .R19 => o == 19
  | .B20 => o == 20
  | .R21 => o == 21
  | .B22 => o == 22
  | .R23 => o == 23
  | .B24 => o == 24
  | .R25 => o == 25
  | .B26 => o == 26
  | .R27 => o == 27
  | .B28 => o == 28
  | .B29 => o == 29
  | .R30 => o == 30
  | .B31 => o == 31
  | .R32 => o == 32
  | .B33 => o == 33
  | .R34 => o == 34
  | .B35 => o == 35
  | .R36 => o == 36
  | .Red => o != 0 && o != 37 && is_red o
  | .Black => o != 0 && o != 37 && !(is_red o)
  | .Even => o != 0 && o % 2 == 0
  | .Odd => o != 37 && o % 2 == 1
  | .Col1 => o != 37 && o % 3 == 1
  | .Col2 => o % 3 == 2
  | .Col3 => o != 0 && o % 3 == 0
  | .Dozen1 => decide (0 < o) && decide (o ≤ 12)
  | .Dozen2 => decide (12 < o) && decide (o ≤ 24)
  | .Dozen3 => decide (24 < o) && decide (o < 37)
  | .Low => decide (0 < o) && decide (o ≤ 18)
  | .High => decide (18 < o) && decide (o < 37)

/-- The multiplier of each `get_payout` arm of the source. -/
def code_multiplier (g : Guess) : Nat :=
  match g with
  | .Red | .Black | .Even | .Odd | .Low | .High => 2
  | .Col1 | .Col2 | .Col3 | .Dozen1 | .Dozen2 | .Dozen3 => 3
  | _ => 36

/-- Modelled from the spec: the pocket mapped to each straight-up category
by the table of spec section 4.4 (`Zero` is pocket 0, `DoubleZero` the
second zero pocket 37, `R1`..`R36` the numbered pockets). -/
def spec_pocket : Guess → Option Nat
  | .Zero => some 0 | .DoubleZero => some 37
  | .R1 => some 1 | .B2 => some 2 | .R3 => some 3 | .B4 => some 4
  | .R5 => some 5 | .B6 => some 6 | .R7 => some 7 | .B8 => some 8
  | .R9 => some 9 | .B10 => some 10 | .B11 => some 11 | .R12 => some 12
  | .B13 => some 13 | .R14 => some 14 | .B15 => some 15 | .R16 => some 16
  | .B17 => some 17 | .R18 => some 18 | .R19 => some 19 | .B20 => some 20
  | .R21 => some 21 | .B22 => some 22 | .R23 => some 23 | .B24 => some 24
  | .R25 => some 25 | .B26 => some 26 | .R27 => some 27 | .B28 => some 28
  | .B29 => some 29 | .R30 => some 30 | .B31 => some 31 | .R32 => some 32
  | .B33 => some 33 | .R34 => some 34 | .B35 => some 35 | .R36 => some 36
  | _ => none

/-- Modelled from the spec: the "Wins when" column of the table in spec
section 4.4, read off the spec's words (not the source). -/
def spec_wins (g : Guess) (o : Nat) : Bool :=
  match spec_pocket g with
  | some p => o == p
  | none =>
    match g with
    | .Red => !(o == 0) && !(o == 37) && is_red o
    | .Black => decide (1 ≤ o) && decide (o ≤ 36) && !(is_red o)
    | .Even => !(o == 0) && o % 2 == 0
    | .Odd => !(o == 37) && o % 2 == 1
    | .Col1 => !(o == 37) && o % 3 == 1
    | .Col2 => o % 3 == 2
    | .Col3 => !(o == 0) && o % 3 == 0
    | .Dozen1 => decide (0 < o) && decide (o ≤ 12)
    | .Dozen2 => decide (12 < o) && decide (o ≤ 24)
    | .Dozen3 => decide (24 < o) && decide (o < 37)
    | .Low => decide (0 < o) && decide (o ≤ 18)
    | .High => decide (18 < o) && decide (o < 37)
    | _ => false

/-- Modelled from the spec: the "Multiplier" column of the table in spec
section 4.4. -/
def spec_multiplier (g : Guess) : Nat :=
  match g with
  | .Red | .Black | .Even | .Odd | .Low | .High => 2
  | .Col1 | .Col2 | .Col3 | .Dozen1 | .Dozen2 | .Dozen3 => 3
  | _ => 36

/-- Modelled from the spec: the payout the table of section 4.4 prescribes,
with exact (unbounded) arithmetic: the multiplier applied to the raw staked
amount on a win, 0 otherwise. -/
def spec_payout (g : Guess) (amount o : Nat) : Nat :=
  if spec_wins g o then amount * spec_multiplier g else 0

theorem get_payout_eq_factored (g : Guess) (a o : Nat) :
    RouletteGuess.get_payout ⟨g, a⟩ o =
      if code_wins g o then (a * code_multiplier g) % U64MOD else 0 := by
  cases g <;> rfl

set_option maxHeartbeats 1000000 in
theorem code_wins_eq_spec_wins : ∀ (g : Guess) (o : Fin 38),
    code_wins g o.val = spec_wins g o.val := by decide

theorem code_multiplier_eq_spec_multiplier : ∀ g : Guess,
    code_multiplier g = spec_multiplier g := by decide

/-- The configuration fields of the `Honeypot` record (state.rs) used by the
wager lifecycle.  The pubkey/bump fields drive the address derivations,
which the boolean `keys_ok` gates model. -/
structure Honeypot where
  tick_size : Nat
  max_amount : Nat
  minimum_bank_size : Nat

/-- The gameplay fields of the `LockedGuess` record (state.rs): commit slot,
`active` flag, committed base-unit stake, and the 64-slot stakes array. -/
structure LockedGuess where
  slot : Nat
  active : Bool
  active_size : Nat
  guesses : Fin 64 → Nat

/-- The `RNG` record of state.rs (value and slot of the last sample). -/
structure RNGState where
  value : Nat
  slot : Nat

/-- The errors the embedded operations can surface: the game-domain errors
of error.rs plus the `ProgramError` variants the processor returns
directly.  `KeyMismatch` stands for the whole family of generic validation
failures of the assertion collaborator (validation_utils, not under src/),
modelled from the spec. -/
inductive ProgErr where
  | ActiveSpin
  | Inactive
  | NumericalOverflow
  | AmountTooLarge
  | InvalidSlot
  | SuspiciousTransaction
  | InsufficientFunds
  | InvalidInstructionData
  | KeyMismatch
  | BorshDecodeFailed
  deriving DecidableEq, Repr

/-- Result of a successful `place_guesses`: the new record and the number of
base units the token collaborator is told to move player → Vault. -/
structure PlaceResult where
  record : LockedGuess
  deposited : Nat

/-- Result of a successful `spin`: new RNG record, new wager record, and the
number of base units moved Vault → player (0 means no transfer invoked). -/
structure SpinResult where
  rng : RNGState
  record : LockedGuess
  reward_paid : Nat

/-- Result of a successful `try_cancel`: the new record and the refund moved
Vault → player (0 for the idle no-op path). -/
structure CancelResult where
  record : LockedGuess
  refunded : Nat

/-- The loop of `place_guesses` (processor.rs lines 412-419): writes each
stake at its category's discriminant index and accumulates the total with
`checked_add`, failing on u64 overflow. -/
def writeAndSum : List (Guess × Nat) → (Fin 64 → Nat) → Nat →
    Option ((Fin 64 → Nat) × Nat)
  | [], arr, total => some (arr, total)
  | p :: rest, arr, total =>
    match checked_add total p.2 with
    | none => none
    | some t => writeAndSum rest (Function.update arr p.1.index p.2) t

/-- Sum of the staked amounts of a stake list. -/
def amountSum (gs : List (Guess × Nat)) : Nat := (gs.map (fun p => p.2)).sum

/-- `initialize_guess_account` (processor.rs lines 352-361): the freshly
initialized record is idle with an all-zero stakes array. -/
def initialize_guess_account : LockedGuess := ⟨0, false, 0, fun _ => 0⟩

/-- `place_guesses` (processor.rs lines 365-457), after account
deserialization.  `keys_ok` models the batch of address/ATA assertions
(lines 399-405); then the source checks `active`, runs the write/sum loop,
scales by `tick_size` with `checked_mul`, checks the Vault floor and the
stake cap, and finally sets `active_size` and invokes the deposit
transfer. -/
def place_guesses (keys_ok : Bool) (hp : Honeypot) (vault_amount clock_slot : Nat)
    (lg : LockedGuess) (gs : List (Guess × Nat)) : Except ProgErr PlaceResult :=
  if keys_ok = false then .error .KeyMismatch
  else if lg.active = true then .error .ActiveSpin
  else
    match writeAndSum gs lg.guesses 0 with
    | none => .error .NumericalOverflow
    | some (arr, total) =>
      match checked_mul total hp.tick_size with
      | none => .error .NumericalOverflow
      | some total_tokens =>
        if vault_amount ≤ hp.minimum_bank_size then .error .InsufficientFunds
        else if hp.max_amount < total_tokens then .error .AmountTooLarge
        else .ok ⟨⟨clock_slot, true, total_tokens, arr⟩, total_tokens⟩

/-- One iteration of spin's payout loop (processor.rs lines 550-568): skip
zero slots, borsh-decode the slot index back into a `Guess` (failure
surfaces the borsh error), and `checked_add` the payout into the reward —
overflow there returns `ProgramError::InvalidInstructionData`. -/
def spinStep (gs : Fin 64 → Nat) (o : Nat) (reward : Nat) (i : Fin 64) :
    Except ProgErr Nat :=
  if gs i = 0 then .ok reward
  else
    match Guess.ofTag i.val with
    | none => .error .BorshDecodeFailed
    | some g =>
      match checked_add reward (RouletteGuess.get_payout ⟨g, gs i⟩ o) with
      | none => .error .InvalidInstructionData
      | some r => .ok r

/-- Spin's payout loop over all 64 slots. -/
def spinReward (gs : Fin 64 → Nat) (o : Nat) : Except ProgErr Nat :=
  (List.finRange 64).foldlM (spinStep gs o) 0

/-- `spin` (processor.rs lines 459-599), after the external oracle sample
`(sample_value, sample_slot)` has been obtained.  `checks_ok` models the
owner/ATA assertions and the instructions-sysvar key check (lines 472-476);
`cur_ix`/`num_ix` are the u16 counters read from the instructions sysvar;
`keys_ok` models the derived-address assertions (lines 516-523).  Then the
source checks `active`, the resolution window (with `checked_add`),
computes `outcome = value % 38`, runs the payout loop, scales by
`tick_size` with `checked_mul`, transfers any positive reward, and
unconditionally resets the record. -/
def spin (checks_ok keys_ok : Bool) (cur_ix num_ix : Nat) (rng : RNGState)
    (lg : LockedGuess) (hp : Honeypot) (sample_value sample_slot tolerance : Nat) :
    Except ProgErr SpinResult :=
  if checks_ok = false then .error .KeyMismatch
  else if cur_ix < u16_wrapping_sub_one num_ix ∧ num_ix = 0 then
    .error .SuspiciousTransaction
  else if keys_ok = false then .error .KeyMismatch
  else if lg.active = false then .error .Inactive
  else if sample_slot ≤ lg.slot then .error .InvalidSlot
  else
    match checked_add lg.slot tolerance with
    | none => .error .NumericalOverflow
    | some hi =>
      if hi < sample_slot then .error .InvalidSlot
      else
        match spinReward lg.guesses (sample_value % 38) with
        | .error e => .error e
        | .ok reward =>
          match checked_mul reward hp.tick_size with
          | none => .error .NumericalOverflow
          | some total_reward =>
            .ok ⟨⟨sample_value, sample_slot⟩,
                 ⟨lg.slot, false, 0, fun _ => 0⟩, total_reward⟩

/-- `try_cancel` (processor.rs lines 601-670).  An inactive record returns
Ok before any assertion runs.  Otherwise `checks_ok` models the owner/ATA
assertions and `keys_ok` the derived-address assertions; the refund
transfer of `active_size` is invoked and the record reset.  The source
never reads `gambler_is_signer` (the account's signer flag) and takes no
clock input. -/
def try_cancel (checks_ok keys_ok gambler_is_signer : Bool) (hp : Honeypot)
    (lg : LockedGuess) : Except ProgErr CancelResult :=
  if lg.active = false then .ok ⟨lg, 0⟩
  else if checks_ok = false then .error .KeyMismatch
  else if keys_ok = false then .error .KeyMismatch
  else .ok ⟨⟨lg.slot, false, 0, fun _ => 0⟩, lg.active_size⟩

/-- The wager records reachable from initialization by successful commits
(whose stake list satisfies `P`), resolves and cancels against a fixed
honeypot configuration. -/
inductive Reach (hp : Honeypot) (P : List (Guess × Nat) → Prop) : LockedGuess → Prop where
  | initOp : Reach hp P initialize_guess_account
  | commitOp : ∀ lg vault clock gs r, Reach hp P lg → P gs →
      place_guesses true hp vault clock lg gs = .ok r → Reach hp P r.record
  | resolveOp : ∀ lg ci ni rng v s tol r, Reach hp P lg →
      spin true true ci ni rng lg hp v s tol = .ok r → Reach hp P r.record
  | cancelOp : ∀ lg sig r, Reach hp P lg →
      try_cancel true true sig hp lg = .ok r → Reach hp P r.record

/-- Stake lists kept by the amended record invariant: nonempty, all amounts
positive, and no repeated bet category. -/
def admissible (gs : List (Guess × Nat)) : Prop :=
  gs ≠ [] ∧ (∀ p ∈ gs, 0 < p.2) ∧ (gs.map (fun p => p.1)).Nodup

/-- The payout spin's loop would add for slot `i` (0 for slots that are
skipped or undecodable). -/
def payoutTerm (gs : Fin 64 → Nat) (o : Nat) (i : Fin 64) : Nat :=
  match Guess.ofTag i.val with
  | none => 0
  | some g => if gs i = 0 then 0 else RouletteGuess.get_payout ⟨g, gs i⟩ o

/-- The exact (unbounded) sum of the per-slot payouts of spin's loop. -/
def payoutSum (gs : Fin 64 → Nat) (o : Nat) : Nat :=
  ((List.finRange 64).map (payoutTerm gs o)).sum

theorem checked_add_some {a b c : Nat} (h : checked_add a b = some c) :
    c = a + b ∧ a + b < U64MOD := by
  unfold checked_add at h
  split at h
  · cases h; exact ⟨rfl, by assumption⟩
  · cases h

theorem checked_add_of_lt {a b : Nat} (h : a + b < U64MOD) :
    checked_add a b = some (a + b) := by
  unfold checked_add
  rw [if_pos h]

theorem checked_mul_some {a b c : Nat} (h : checked_mul a b = some c) :
    c = a * b ∧ a * b < U64MOD := by
  unfold checked_mul at h
  split at h
  · cases h; exact ⟨rfl, by assumption⟩
  · cases h

theorem checked_mul_of_lt {a b : Nat} (h : a * b < U64MOD) :
    checked_mul a b = some (a * b) := by
  unfold checked_mul
  rw [if_pos h]

theorem amountSum_nil : amountSum [] = 0 := rfl

theorem amountSum_cons (p : Guess × Nat) (rest : List (Guess × Nat)) :
    amountSum (p :: rest) = p.2 + amountSum rest := by
  simp [amountSum]

theorem Guess.index_inj : ∀ g g' : Guess, g.index = g'.index → g = g' := by decide

theorem Guess.index_val_lt_50 : ∀ g : Guess, (g.index).val < 50 := by decide

theorem Guess.ofTag_isSome_of_lt : ∀ i : Fin 64, i.val < 50 →
    (Guess.ofTag i.val).isSome := by decide

theorem Guess.ofTag_index : ∀ g : Guess, Guess.ofTag (g.index).val = some g := by decide

theorem writeAndSum_total : ∀ (gs : List (Guess × Nat)) (arr : Fin 64 → Nat)
    (t : Nat) (arr' : Fin 64 → Nat) (t' : Nat),
    writeAndSum gs arr t = some (arr', t') → t' = t + amountSum gs := by
  intro gs
  induction gs with
  | nil =>
    intro arr t arr' t' h
    cases h
    simp [amountSum]
  | cons p rest ih =>
    intro arr t arr' t' h
    unfold writeAndSum at h
    cases hc : checked_add t p.2 with
    | none => rw [hc] at h; cases h
    | some t1 =>
      rw [hc] at h
      obtain ⟨rfl, _⟩ := checked_add_some hc
      have := ih _ _ _ _ h
      rw [this, amountSum_cons]
      omega

theorem writeAndSum_untouched : ∀ (gs : List (Guess × Nat)) (arr : Fin 64 → Nat)
    (t : Nat) (arr' : Fin 64 → Nat) (t' : Nat),
    writeAndSum gs arr t = some (arr', t') →
    ∀ j : Fin 64, (∀ p ∈ gs, p.1.index ≠ j) → arr' j = arr j := by
  intro gs
  induction gs with
  | nil =>
    intro arr t arr' t' h j _
    cases h
    rfl
  | cons p rest ih =>
    intro arr t arr' t' h j hj
    unfold writeAndSum at h
    cases hc : checked_add t p.2 with
    | none => rw [hc] at h; cases h
    | some t1 =>
      rw [hc] at h
      have h1 := ih _ _ _ _ h j (fun q hq => hj q (List.mem_cons_of_mem p hq))
      rw [h1, Function.update_noteq]
      exact fun he => hj p (List.mem_cons_self p rest) (he ▸ rfl)

theorem writeAndSum_member : ∀ (gs : List (Guess × Nat)) (arr : Fin 64 → Nat)
    (t : Nat) (arr' : Fin 64 → Nat) (t' : Nat),
    (gs.map (fun p => p.1)).Nodup →
    writeAndSum gs arr t = some (arr', t') →
    ∀ p ∈ gs, arr' p.1.index = p.2 := by
  intro gs
  induction gs with
  | nil =>
    intro arr t arr' t' _ _ p hp
    cases hp
  | cons q rest ih =>
    intro arr t arr' t' hnd h p hp
    rw [List.map_cons, List.nodup_cons] at hnd
    unfold writeAndSum at h
    cases hc : checked_add t q.2 with
    | none => rw [hc] at h; cases h
    | some t1 =>
      rw [hc] at h
      rcases List.mem_cons.mp hp with rfl | hp'
      · have hne : ∀ p' ∈ rest, p'.1.index ≠ p.1.index := by
          intro p' hp' he
          exact hnd.1 (List.mem_map.mpr ⟨p', hp', Guess.index_inj _ _ he⟩)
        rw [writeAndSum_untouched rest _ _ _ _ h _ hne, Function.update_same]
      · exact ih _ _ _ _ hnd.2 h p hp'

theorem writeAndSum_arraySum : ∀ (gs : List (Guess × Nat)) (arr : Fin 64 → Nat)
    (t : Nat) (arr' : Fin 64 → Nat) (t' : Nat),
    (∀ p ∈ gs, arr p.1.index = 0) →
    (gs.map (fun p => p.1)).Nodup →
    writeAndSum gs arr t = some (arr', t') →
    (∑ i, arr' i) = (∑ i, arr i) + amountSum gs := by
  intro gs
  induction gs with
  | nil =>
    intro arr t arr' t' _ _ h
    cases h
    simp [amountSum]
  | cons q rest ih =>
    intro arr t arr' t' hz hnd h
    rw [List.map_cons, List.nodup_cons] at hnd
    unfold writeAndSum at h
    cases hc : checked_add t q.2 with
    | none => rw [hc] at h; cases h
    | some t1 =>
      rw [hc] at h
      have hz' : ∀ p ∈ rest, Function.update arr q.1.index q.2 p.1.index = 0 := by
        intro p hp
        rw [Function.update_noteq]
        · exact hz p (List.mem_cons_of_mem q hp)
        · intro he
          exact hnd.1 (List.mem_map.mpr ⟨p, hp, Guess.index_inj _ _ he⟩)
      have hsum : (∑ i, Function.update arr q.1.index q.2 i) = (∑ i, arr i) + q.2 := by
        rw [Finset.sum_update_of_mem (Finset.mem_univ q.1.index)]
        rw [← Finset.erase_eq]
        have h0 := hz q (List.mem_cons_self q rest)
        rw [← Finset.add_sum_erase Finset.univ arr (Finset.mem_univ q.1.index), h0]
        omega
      rw [ih _ _ _ _ hz' hnd.2 h, hsum, amountSum_cons]
      omega

theorem writeAndSum_ok : ∀ (gs : List (Guess × Nat)) (arr : Fin 64 → Nat) (t : Nat),
    t + amountSum gs < U64MOD →
    ∃ arr', writeAndSum gs arr t = some (arr', t + amountSum gs) := by
  intro gs
  induction gs with
  | nil =>
    intro arr t _
    exact ⟨arr, by simp [writeAndSum, amountSum]⟩
  | cons q rest ih =>
    intro arr t hlt
    rw [amountSum_cons] at hlt
    have hq : t + q.2 < U64MOD := by omega
    have hrest : (t + q.2) + amountSum rest < U64MOD := by omega
    obtain ⟨arr', h⟩ := ih (Function.update arr q.1.index q.2) (t + q.2) hrest
    refine ⟨arr', ?_⟩
    unfold writeAndSum
    rw [checked_add_of_lt hq, amountSum_cons, ← Nat.add_assoc]
    exact h

theorem spin_ok_record {ck kk : Bool} {ci ni : Nat} {rng : RNGState}
    {lg : LockedGuess} {hp : Honeypot} {v s tol : Nat} {r : SpinResult}
    (h : spin ck kk ci ni rng lg hp v s tol = .ok r) :
    r.record = ⟨lg.slot, false, 0, fun _ => 0⟩ := by
  unfold spin at h
  repeat' split at h
  all_goals cases h <;> rfl

theorem place_ok_inv {kk : Bool} {hp : Honeypot} {vault clock : Nat}
    {lg : LockedGuess} {gs : List (Guess × Nat)} {r : PlaceResult}
    (h : place_guesses kk hp vault clock lg gs = .ok r) :
    lg.active = false ∧
    ∃ arr total, writeAndSum gs lg.guesses 0 = some (arr, total) ∧
      total * hp.tick_size < U64MOD ∧
      hp.minimum_bank_size < vault ∧
      total * hp.tick_size ≤ hp.max_amount ∧
      r.record = ⟨clock, true, total * hp.tick_size, arr⟩ ∧
      r.deposited = total * hp.tick_size := by
  unfold place_guesses at h
  split at h
  · cases h
  split at h
  · cases h
  rename_i hkk hact
  split at h
  · cases h
  rename_i arr total hw
  split at h
  · cases h
  rename_i tt hm
  split at h
  · cases h
  rename_i hvault
  split at h
  · cases h
  rename_i hcap
  cases h
  obtain ⟨rfl, hlt⟩ := checked_mul_some hm
  exact ⟨by simpa using hact, arr, total, hw, hlt, by omega, by omega, rfl, rfl⟩

theorem cancel_ok_inv {ck kk sig : Bool} {hp : Honeypot} {lg : LockedGuess}
    {r : CancelResult} (h : try_cancel ck kk sig hp lg = .ok r) :
    (lg.active = false ∧ r.record = lg ∧ r.refunded = 0) ∨
    (lg.active = true ∧ r.record = ⟨lg.slot, false, 0, fun _ => 0⟩ ∧
      r.refunded = lg.active_size) := by
  unfold try_cancel at h
  split at h
  · cases h
    rename_i hact
    exact Or.inl ⟨hact, rfl, rfl⟩
  rename_i hact
  split at h
  · cases h
  split at h
  · cases h
  cases h
  exact Or.inr ⟨by simpa using hact, rfl, rfl⟩

theorem foldlM_spinStep_char (gs : Fin 64 → Nat) (o : Nat) :
    ∀ (l : List (Fin 64)) (acc : Nat), acc < U64MOD →
      (∀ i ∈ l, gs i ≠ 0 → (Guess.ofTag i.val).isSome) →
      l.foldlM (spinStep gs o) acc =
        if acc + (l.map (payoutTerm gs o)).sum < U64MOD then
          .ok (acc + (l.map (payoutTerm gs o)).sum)
        else .error .InvalidInstructionData := by
  intro l
  induction l with
  | nil =>
    intro acc hacc _
    have h0 : ([] : List (Fin 64)).foldlM (spinStep gs o) acc = .ok acc := rfl
    rw [h0]
    simp [hacc]
  | cons i rest ih =>
    intro acc hacc hdec
    have hstep : (i :: rest).foldlM (spinStep gs o) acc =
        spinStep gs o acc i >>= fun b => rest.foldlM (spinStep gs o) b := rfl
    rw [hstep, List.map_cons, List.sum_cons]
    by_cases hz : gs i = 0
    · have hterm : payoutTerm gs o i = 0 := by
        unfold payoutTerm
        cases Guess.ofTag i.val <;> simp [hz]
      have h1 : spinStep gs o acc i = .ok acc := by simp [spinStep, hz]
      rw [h1, hterm]
      show rest.foldlM (spinStep gs o) acc = _
      rw [ih acc hacc (fun j hj => hdec j (List.mem_cons_of_mem i hj))]
      simp
    · obtain ⟨g, hg⟩ := Option.isSome_iff_exists.mp
        (hdec i (List.mem_cons_self i rest) hz)
      have hterm : payoutTerm gs o i = RouletteGuess.get_payout ⟨g, gs i⟩ o := by
        unfold payoutTerm
        rw [hg]
        simp [hz]
      rw [hterm]
      by_cases hlt : acc + RouletteGuess.get_payout ⟨g, gs i⟩ o < U64MOD
      · have h1 : spinStep gs o acc i =
            .ok (acc + RouletteGuess.get_payout ⟨g, gs i⟩ o) := by
          simp [spinStep, hz, hg, checked_add_of_lt hlt]
        rw [h1]
        show rest.foldlM (spinStep gs o) _ = _
        rw [ih _ hlt (fun j hj => hdec j (List.mem_cons_of_mem i hj)), Nat.add_assoc]
      · have hca : checked_add acc (RouletteGuess.get_payout ⟨g, gs i⟩ o) = none := by
          unfold checked_add
          rw [if_neg hlt]
        have h1 : spinStep gs o acc i = .error .InvalidInstructionData := by
          simp [spinStep, hz, hg, hca]
        rw [h1]
        rw [if_neg (by omega)]
        rfl

theorem spinReward_char (gs : Fin 64 → Nat) (o : Nat)
    (hdec : ∀ i : Fin 64, gs i ≠ 0 → (Guess.ofTag i.val).isSome) :
    spinReward gs o =
      if payoutSum gs o < U64MOD then .ok (payoutSum gs o)
      else .error .InvalidInstructionData := by
  unfold spinReward payoutSum
  rw [foldlM_spinStep_char gs o (List.finRange 64) 0 (by norm_num [U64MOD])
    (fun i _ => hdec i)]
  simp

theorem spin_error_origin {ck kk : Bool} {ci ni : Nat} {rng : RNGState}
    {lg : LockedGuess} {hp : Honeypot} {v s tol : Nat} {e : ProgErr}
    (h : spin ck kk ci ni rng lg hp v s tol = .error e) :
    e = .KeyMismatch ∨ e = .SuspiciousTransaction ∨ e = .Inactive ∨
    e = .InvalidSlot ∨ e = .NumericalOverflow ∨
    spinReward lg.guesses (v % 38) = .error e := by
  unfold spin at h
  repeat' split at h
  all_goals first
    | (injection h with h2; subst h2;
       first
         | exact Or.inl rfl
         | exact Or.inr (Or.inl rfl)
         | exact Or.inr (Or.inr (Or.inl rfl))
         | exact Or.inr (Or.inr (Or.inr (Or.inl rfl)))
         | exact Or.inr (Or.inr (Or.inr (Or.inr (Or.inl rfl))))
         | exact Or.inr (Or.inr (Or.inr (Or.inr (Or.inr (by assumption))))))
    | injection h

theorem spin_ne_borsh_error {ck kk : Bool} {ci ni : Nat} {rng : RNGState}
    {lg : LockedGuess} {hp : Honeypot} {v s tol : Nat}
    (hhigh : ∀ i : Fin 64, 50 ≤ i.val → lg.guesses i = 0) :
    spin ck kk ci ni rng lg hp v s tol ≠ .error .BorshDecodeFailed := by
  have hdec : ∀ i : Fin 64, lg.guesses i ≠ 0 → (Guess.ofTag i.val).isSome := by
    intro i hne
    by_cases hi : i.val < 50
    · exact Guess.ofTag_isSome_of_lt i hi
    · exact absurd (hhigh i (Nat.le_of_not_lt hi)) hne
  intro h
  rcases spin_error_origin h with h1 | h1 | h1 | h1 | h1 | h1
  all_goals try cases h1
  rw [spinReward_char lg.guesses (v % 38) hdec] at h1
  split at h1
  · cases h1
  · cases h1

/-- Claim C1, counterexample: at stake `2^63` on the straight-up `Zero`
category and outcome 0, `get_payout` does not return 36 times the stake —
the bare u64 multiplication wraps (`2^63 * 36 mod 2^64 = 0`), so the engine
returns 0 where the section-4.4 table prescribes `36 * 2^63`. -/
theorem c1_counterexample :
    RouletteGuess.get_payout ⟨Guess.Zero, 2 ^ 63⟩ 0 ≠
      spec_payout Guess.Zero (2 ^ 63) 0 := by decide

/-- Claim C1 (amended): for every bet category and every outcome in 0..37,
`get_payout` returns the section-4.4 multiplier table applied to the raw
staked amount, reduced modulo 2^64 — i.e. the table value exactly whenever
`amount * multiplier` fits in u64, and the wrapped product otherwise. -/
theorem c1_payout_table (g : Guess) (a o : Nat) (h : o ≤ 37) :
    RouletteGuess.get_payout ⟨g, a⟩ o = spec_payout g a o % U64MOD := by
  have h2 : code_wins g o = spec_wins g o :=
    code_wins_eq_spec_wins g ⟨o, Nat.lt_succ_of_le h⟩
  rw [get_payout_eq_factored, code_multiplier_eq_spec_multiplier g, h2]
  unfold spec_payout
  cases hw : spec_wins g o <;> simp [hw]

/-- Witness for C1 (amended) at a concrete winning input: a Red bet of 7 on
outcome 5 pays `7 * 2`. -/
theorem c1_payout_table_witness :
    RouletteGuess.get_payout ⟨Guess.Red, 7⟩ 5 = spec_payout Guess.Red 7 5 % U64MOD :=
  c1_payout_table Guess.Red 7 5 (by decide)

/-- Claim C2: a commit on an Idle record whose stake sum fits in u64 and
satisfies `sum * tick_size ≤ max_amount`, against a Vault balance strictly
above `minimum_bank_size`, succeeds: the record becomes active, stores the
current slot, and `active_size` and the player debit both equal
`sum * tick_size`. -/
theorem c2_commit_success (hp : Honeypot) (vault clock : Nat) (lg : LockedGuess)
    (gs : List (Guess × Nat))
    (hidle : lg.active = false)
    (hsum : amountSum gs < U64MOD)
    (hmax64 : hp.max_amount < U64MOD)
    (hcap : amountSum gs * hp.tick_size ≤ hp.max_amount)
    (hbank : hp.minimum_bank_size < vault) :
    (place_guesses true hp vault clock lg gs).map
        (fun r => (r.record.active, r.record.slot, r.record.active_size, r.deposited)) =
      .ok (true, clock, amountSum gs * hp.tick_size, amountSum gs * hp.tick_size) := by
  obtain ⟨arr', hws⟩ := writeAndSum_ok gs lg.guesses 0 (by omega)
  rw [Nat.zero_add] at hws
  have hmul : checked_mul (amountSum gs) hp.tick_size =
      some (amountSum gs * hp.tick_size) :=
    checked_mul_of_lt (by omega)
  unfold place_guesses
  rw [if_neg (by simp), if_neg (by simp [hidle])]
  simp only [hws, hmul]
  rw [if_neg (by omega), if_neg (by omega)]
  rfl

/-- Witness for C2: the spec section 8 scenario — tick_size 1, max 1000,
floor 10, Vault 500, single Red stake of 100: commit succeeds with
`active_size = 100` and a 100-unit debit. -/
theorem c2_commit_success_witness :
    (place_guesses true ⟨1, 1000, 10⟩ 500 3 initialize_guess_account
        [(Guess.Red, 100)]).map
        (fun r => (r.record.active, r.record.slot, r.record.active_size, r.deposited)) =
      .ok (true, 3, 100, 100) :=
  c2_commit_success ⟨1, 1000, 10⟩ 500 3 initialize_guess_account [(Guess.Red, 100)]
    rfl (by decide) (by decide) (by decide) (by decide)

/-- Claim C3: whenever `spin` returns successfully, the record it returns is
Idle — `active = false`, `active_size = 0`, and all 64 stake slots zero —
both on winning and on zero-reward outcomes. -/
theorem c3_resolve_resets (ck kk : Bool) (ci ni : Nat) (rng : RNGState)
    (lg : LockedGuess) (hp : Honeypot) (v s tol : Nat) (r : SpinResult)
    (h : spin ck kk ci ni rng lg hp v s tol = .ok r) :
    r.record.active = false ∧ r.record.active_size = 0 ∧
    ∀ i, r.record.guesses i = 0 := by
  rw [spin_ok_record h]
  exact ⟨rfl, rfl, fun _ => rfl⟩

/-- Witness for C3: a concrete winning spin (Red stake 10, outcome 5, reward
paid 20) whose result record is Idle. -/
theorem c3_resolve_resets_witness :
    (⟨10, false, 0, fun _ => 0⟩ : LockedGuess).active = false ∧
    (⟨10, false, 0, fun _ => 0⟩ : LockedGuess).active_size = 0 ∧
    ∀ i, (⟨10, false, 0, fun _ => 0⟩ : LockedGuess).guesses i = 0 :=
  c3_resolve_resets true true 0 1 ⟨0, 0⟩
    ⟨10, true, 10, Function.update (fun _ => 0) Guess.Red.index 10⟩
    ⟨1, 1000, 10⟩ 5 11 5
    ⟨⟨5, 11⟩, ⟨10, false, 0, fun _ => 0⟩, 20⟩ rfl

/-- Claim C4: on a Committed record (all earlier guards passing), `spin`
fails with the `InvalidSlot` domain error whenever the sampled slot is at
or before the commit slot, or strictly after commit slot plus tolerance —
the too-early and too-late cases yield the same error kind. -/
theorem c4_window (ci ni : Nat) (rng : RNGState) (lg : LockedGuess) (hp : Honeypot)
    (v s tol : Nat)
    (hguard : ¬(ci < u16_wrapping_sub_one ni ∧ ni = 0))
    (hact : lg.active = true)
    (hs64 : s < U64MOD)
    (hwin : s ≤ lg.slot ∨ lg.slot + tol < s) :
    spin true true ci ni rng lg hp v s tol = .error .InvalidSlot := by
  unfold spin
  rw [if_neg (by simp), if_neg hguard, if_neg (by simp), if_neg (by simp [hact])]
  rcases hwin with hw | hw
  · rw [if_pos hw]
  · have hadd : checked_add lg.slot tol = some (lg.slot + tol) :=
      checked_add_of_lt (by omega)
    rw [if_neg (by omega)]
    simp only [hadd]
    rw [if_pos hw]

/-- Witness for C4 at a concrete too-early input: sample slot equal to the
commit slot is rejected with `InvalidSlot`. -/
theorem c4_window_witness :
    spin true true 0 1 ⟨0, 0⟩ ⟨10, true, 10, fun _ => 0⟩ ⟨1, 1000, 10⟩ 5 10 5 =
      .error .InvalidSlot :=
  c4_window 0 1 ⟨0, 0⟩ ⟨10, true, 10, fun _ => 0⟩ ⟨1, 1000, 10⟩ 5 10 5
    (by decide) rfl (by decide) (Or.inl (by decide))

/-- Claim C5, counterexample: the claim's "fails with stake-too-large
whenever `sum * tick_size > max_amount`" does not hold as stated — (1)
when the Vault floor condition also fails, the Vault check runs first and
the error is `InsufficientFunds`; (2) on an already-Committed record the
error is `ActiveSpin`; (3) when the stake summation itself overflows u64
the error is `NumericalOverflow` — in all three inputs
`sum * tick_size > max_amount`. -/
theorem c5_counterexample :
    place_guesses true ⟨1, 10, 100⟩ 50 0 initialize_guess_account
        [(Guess.Red, 20)] = .error .InsufficientFunds ∧
    place_guesses true ⟨1, 10, 100⟩ 500 0
        ⟨0, true, 20, Function.update (fun _ => 0) Guess.Red.index 20⟩
        [(Guess.Red, 20)] = .error .ActiveSpin ∧
    place_guesses true ⟨1, 10, 10⟩ 500 0 initialize_guess_account
        [(Guess.Red, 2 ^ 63), (Guess.Low, 2 ^ 63)] = .error .NumericalOverflow :=
  ⟨rfl, rfl, rfl⟩

/-- Claim C5 (amended): on an Idle record whose stake arithmetic fits in
u64, commit fails with `InsufficientFunds` whenever the Vault balance is at
or below `minimum_bank_size` (this check runs first), and with the
`AmountTooLarge` ("stake too large") domain error whenever the Vault is
above the floor and `sum * tick_size > max_amount`; both failures happen
before any transfer, and the error result carries no new record state. -/
theorem c5_commit_failures (hp : Honeypot) (vault clock : Nat) (lg : LockedGuess)
    (gs : List (Guess × Nat))
    (hidle : lg.active = false)
    (hsum : amountSum gs < U64MOD)
    (hmul : amountSum gs * hp.tick_size < U64MOD) :
    (vault ≤ hp.minimum_bank_size →
      place_guesses true hp vault clock lg gs = .error .InsufficientFunds) ∧
    (hp.minimum_bank_size < vault → hp.max_amount < amountSum gs * hp.tick_size →
      place_guesses true hp vault clock lg gs = .error .AmountTooLarge) := by
  obtain ⟨arr', hws⟩ := writeAndSum_ok gs lg.guesses 0 (by omega)
  rw [Nat.zero_add] at hws
  have hmul' : checked_mul (amountSum gs) hp.tick_size =
      some (amountSum gs * hp.tick_size) := checked_mul_of_lt hmul
  constructor
  · intro hv
    unfold place_guesses
    rw [if_neg (by simp), if_neg (by simp [hidle])]
    simp only [hws, hmul']
    rw [if_pos hv]
  · intro hv hcap
    unfold place_guesses
    rw [if_neg (by simp), if_neg (by simp [hidle])]
    simp only [hws, hmul']
    rw [if_neg (by omega), if_pos hcap]

/-- Witness for C5 (amended): with Vault balance 50 at floor 100 the commit
fails with `InsufficientFunds`. -/
theorem c5_commit_failures_witness :
    place_guesses true ⟨1, 10, 100⟩ 50 0 initialize_guess_account
        [(Guess.Black, 20)] = .error .InsufficientFunds :=
  (c5_commit_failures ⟨1, 10, 100⟩ 50 0 initialize_guess_account
    [(Guess.Black, 20)] rfl (by decide) (by decide)).1 (by decide)

/-- Claim C6, counterexample: payout arithmetic is not all overflow-checked
with a "numerical overflow" error — (1) a `Zero` stake of `2^63` at outcome
0 silently wraps (`2^63 * 36 mod 2^64 = 0`) and the spin SUCCEEDS with
reward 0 instead of failing; (2) when the reward accumulation's
`checked_add` overflows, the error returned is the generic
`InvalidInstructionData`, not `NumericalOverflow`. -/
theorem c6_counterexample :
    spin true true 0 1 ⟨0, 0⟩
        ⟨10, true, 2 ^ 63, Function.update (fun _ => 0) Guess.Zero.index (2 ^ 63)⟩
        ⟨1, 2 ^ 63, 10⟩ 0 11 5 =
      .ok ⟨⟨0, 11⟩, ⟨10, false, 0, fun _ => 0⟩, 0⟩ ∧
    spin true true 0 1 ⟨0, 0⟩
        ⟨10, true, 2 ^ 64 - 2,
          Function.update (Function.update (fun _ => 0) Guess.Red.index (2 ^ 63 - 1))
            Guess.Low.index (2 ^ 63 - 1)⟩
        ⟨1, 2 ^ 64 - 2, 10⟩ 5 11 5 = .error .InvalidInstructionData :=
  ⟨rfl, rfl⟩

/-- Claim C6 (amended): per-category payouts are computed with WRAPPING u64
multiplication (no error on overflow); the accumulation into the reward is
checked but its overflow aborts with the generic `InvalidInstructionData`
error, and only the `tick_size` scaling overflow aborts with
`NumericalOverflow` — in every aborting case the resolution errors out
before any transfer. -/
theorem c6_overflow_behavior (ci ni : Nat) (rng : RNGState) (lg : LockedGuess)
    (hp : Honeypot) (v s tol : Nat)
    (hguard : ¬(ci < u16_wrapping_sub_one ni ∧ ni = 0))
    (hact : lg.active = true)
    (h1 : lg.slot < s) (h2 : lg.slot + tol < U64MOD) (h3 : s ≤ lg.slot + tol)
    (hhigh : ∀ i : Fin 64, 50 ≤ i.val → lg.guesses i = 0) :
    (U64MOD ≤ payoutSum lg.guesses (v % 38) →
      spin true true ci ni rng lg hp v s tol = .error .InvalidInstructionData) ∧
    (payoutSum lg.guesses (v % 38) < U64MOD →
      U64MOD ≤ payoutSum lg.guesses (v % 38) * hp.tick_size →
      spin true true ci ni rng lg hp v s tol = .error .NumericalOverflow) := by
  have hdec : ∀ i : Fin 64, lg.guesses i ≠ 0 → (Guess.ofTag i.val).isSome := by
    intro i hne
    by_cases hi : i.val < 50
    · exact Guess.ofTag_isSome_of_lt i hi
    · exact absurd (hhigh i (Nat.le_of_not_lt hi)) hne
  have hsr := spinReward_char lg.guesses (v % 38) hdec
  have hadd : checked_add lg.slot tol = some (lg.slot + tol) := checked_add_of_lt h2
  constructor
  · intro hbig
    unfold spin
    rw [if_neg (by simp), if_neg hguard, if_neg (by simp), if_neg (by simp [hact]),
        if_neg (by omega)]
    simp only [hadd]
    rw [if_neg (by omega), hsr, if_neg (by omega)]
  · intro hlt hbig
    have hcm : checked_mul (payoutSum lg.guesses (v % 38)) hp.tick_size = none := by
      unfold checked_mul
      rw [if_neg (by omega)]
    unfold spin
    rw [if_neg (by simp), if_neg hguard, if_neg (by simp), if_neg (by simp [hact]),
        if_neg (by omega)]
    simp only [hadd]
    rw [if_neg (by omega), hsr, if_pos hlt]
    simp only [hcm]

/-- Witness for C6 (amended): two winning stakes of `2^63 - 1` (Odd and
High, outcome 19) make the reward accumulation overflow, and the spin
aborts with `InvalidInstructionData`. -/
theorem c6_overflow_behavior_witness :
    spin true true 0 1 ⟨0, 0⟩
        ⟨20, true, 2 ^ 64 - 2,
          Function.update (Function.update (fun _ => 0) Guess.Odd.index (2 ^ 63 - 1))
            Guess.High.index (2 ^ 63 - 1)⟩
        ⟨1, 2 ^ 64 - 2, 10⟩ 19 21 5 = .error .InvalidInstructionData :=
  (c6_overflow_behavior 0 1 ⟨0, 0⟩
    ⟨20, true, 2 ^ 64 - 2,
      Function.update (Function.update (fun _ => 0) Guess.Odd.index (2 ^ 63 - 1))
        Guess.High.index (2 ^ 63 - 1)⟩
    ⟨1, 2 ^ 64 - 2, 10⟩ 19 21 5 (by decide) rfl (by decide) (by decide) (by decide)
    (by decide)).1 (by decide)

/-- Claim C7 (code-bug evidence): a Spin bundled as instruction 0 of a
2-instruction transaction is NOT rejected: the guard's literal condition
`cur < num - 1 && num == 0` is false for every nonzero instruction count
(u16 wrap makes `num - 1 = 65535` only when `num = 0`), so resolution
proceeds and here succeeds — contradicting both the spec's
sole-instruction requirement and the source's own "This must be the only
instruction in the transaction" message. -/
theorem c7_bundled_not_rejected :
    spin true true 0 2 ⟨0, 0⟩
        ⟨10, true, 10, Function.update (fun _ => 0) Guess.Red.index 10⟩
        ⟨1, 1000, 10⟩ 5 11 5 =
      .ok ⟨⟨5, 11⟩, ⟨10, false, 0, fun _ => 0⟩, 20⟩ := rfl

/-- Claim C9: `try_cancel` on a Committed record with valid derived
addresses always succeeds — refunding exactly `active_size` to the wager
owner's holding account and resetting the record to Idle — for ANY value of
the caller's signer flag (the source never checks it) and any commit slot
(no elapsed-time condition exists). -/
theorem c9_cancel_no_auth (sig : Bool) (hp : Honeypot) (lg : LockedGuess)
    (hact : lg.active = true) :
    try_cancel true true sig hp lg =
      .ok ⟨⟨lg.slot, false, 0, fun _ => 0⟩, lg.active_size⟩ := by
  unfold try_cancel
  rw [if_neg (by simp [hact]), if_neg (by simp), if_neg (by simp)]

/-- Witness for C9: an unsigned cancellation of a just-committed record
(commit slot 7, stake 100) succeeds and refunds 100. -/
theorem c9_cancel_no_auth_witness :
    try_cancel true true false ⟨1, 1000, 10⟩
        ⟨7, true, 100, Function.update (fun _ => 0) Guess.Col2.index 100⟩ =
      .ok ⟨⟨7, false, 0, fun _ => 0⟩, 100⟩ :=
  c9_cancel_no_auth false ⟨1, 1000, 10⟩
    ⟨7, true, 100, Function.update (fun _ => 0) Guess.Col2.index 100⟩ rfl

/-- Claim C8, counterexample: a successful commit of an EMPTY stake list on
the freshly initialized record is accepted (total 0 passes both checks) and
produces a reachable state with `active = true` while `active_size = 0` and
every stakes entry zero — violating the claimed invariant
`active == false iff active_size == 0`.  (A stake list with a zero amount,
or one repeating a category — the sum counts both entries but the array
keeps only the last — breaks it likewise.) -/
theorem c8_counterexample :
    (place_guesses true ⟨1, 1000, 10⟩ 500 3 initialize_guess_account []).map
        (fun r => (r.record.active, r.record.active_size)) = .ok (true, 0) := rfl

/-- Claim C8 (amended): for a honeypot with positive `tick_size`, and
restricted to commits whose stake list is nonempty with all amounts
positive and no repeated category, every reachable record satisfies:
`active = false` iff `active_size = 0` iff all stakes entries are zero, and
`active_size` always equals the stakes-array sum times `tick_size`. -/
theorem c8_record_invariant (hp : Honeypot) (htick : 0 < hp.tick_size)
    (lg : LockedGuess) (h : Reach hp admissible lg) :
    (lg.active = false ↔ lg.active_size = 0) ∧
    (lg.active = false ↔ ∀ i, lg.guesses i = 0) ∧
    lg.active_size = (∑ i, lg.guesses i) * hp.tick_size := by
  induction h with
  | initOp =>
    exact ⟨by simp [initialize_guess_account], by simp [initialize_guess_account],
      by simp [initialize_guess_account]⟩
  | commitOp lg vault clock gs r hreach hP hok ih =>
    obtain ⟨hact, arr, total, hws, hlt, hbank, hcap, hrec, hdep⟩ := place_ok_inv hok
    have hzero : ∀ i, lg.guesses i = 0 := (ih.2.1).mp hact
    obtain ⟨hne, hpos, hnd⟩ := hP
    have htot := writeAndSum_total gs lg.guesses 0 arr total hws
    rw [Nat.zero_add] at htot
    subst htot
    have harr : (∑ i, arr i) = (∑ i, lg.guesses i) + amountSum gs :=
      writeAndSum_arraySum gs lg.guesses 0 arr _ (fun p _ => hzero _) hnd hws
    have hsz : (∑ i, lg.guesses i) = 0 := by simp [hzero]
    obtain ⟨q, hq⟩ : ∃ q, q ∈ gs := by
      cases gs with
      | nil => exact absurd rfl hne
      | cons q rest => exact ⟨q, List.mem_cons_self q rest⟩
    have hpos_total : 0 < amountSum gs := by
      cases gs with
      | nil => exact absurd rfl hne
      | cons p rest =>
        have := hpos p (List.mem_cons_self p rest)
        rw [amountSum_cons]
        omega
    have hmem := writeAndSum_member gs lg.guesses 0 arr _ hnd hws q hq
    have hts : amountSum gs * hp.tick_size ≠ 0 := Nat.mul_ne_zero (by omega) (by omega)
    rw [hrec]
    refine ⟨?_, ?_, ?_⟩
    · simp [hts]
    · have hq0 : ¬ (∀ i, arr i = 0) := by
        intro hall
        have h1 := hall q.1.index
        rw [hmem] at h1
        have h2 := hpos q hq
        omega
      simp [hq0]
    · show amountSum gs * hp.tick_size = (∑ i, arr i) * hp.tick_size
      rw [harr, hsz]
      simp
  | resolveOp lg ci ni rng v s tol r hreach hok ih =>
    rw [spin_ok_record hok]
    exact ⟨by simp, by simp, by simp⟩
  | cancelOp lg sig r hreach hok ih =>
    rcases cancel_ok_inv hok with ⟨_, hrec, _⟩ | ⟨_, hrec, _⟩
    · rw [hrec]; exact ih
    · rw [hrec]; exact ⟨by simp, by simp, by simp⟩

/-- Witness for C8 (amended): the invariant holds at the freshly initialized
record under a honeypot with tick_size 1. -/
theorem c8_record_invariant_witness :
    (initialize_guess_account.active = false ↔
      initialize_guess_account.active_size = 0) ∧
    (initialize_guess_account.active = false ↔
      ∀ i, initialize_guess_account.guesses i = 0) ∧
    initialize_guess_account.active_size =
      (∑ i, initialize_guess_account.guesses i) *
        (⟨1, 1000, 10⟩ : Honeypot).tick_size :=
  c8_record_invariant ⟨1, 1000, 10⟩ (by decide) initialize_guess_account Reach.initOp

/-- Claim C10: in every reachable record the stakes entries at indices
50..63 are zero — commits write only at category discriminants 0..49 and
every other path zeroes the whole array — and consequently spin's per-slot
decode of an index back into a bet category never reaches its failure
branch: spin on a reachable record never returns the borsh decode error. -/
theorem c10_high_slots_zero (hp : Honeypot) (lg : LockedGuess)
    (h : Reach hp (fun _ => True) lg) :
    (∀ i : Fin 64, 50 ≤ i.val → lg.guesses i = 0) ∧
    (∀ (ck kk : Bool) (ci ni : Nat) (rng : RNGState) (v s tol : Nat),
      spin ck kk ci ni rng lg hp v s tol ≠ .error .BorshDecodeFailed) := by
  have hz : ∀ i : Fin 64, 50 ≤ i.val → lg.guesses i = 0 := by
    induction h with
    | initOp => intro i _; rfl
    | commitOp lg vault clock gs r hreach hP hok ih =>
      obtain ⟨hact, arr, total, hws, _, _, _, hrec, _⟩ := place_ok_inv hok
      intro i hi
      rw [hrec]
      show arr i = 0
      have hne : ∀ p ∈ gs, p.1.index ≠ i := by
        intro p _ he
        have hv := Guess.index_val_lt_50 p.1
        rw [he] at hv
        omega
      rw [writeAndSum_untouched gs lg.guesses 0 arr total hws i hne]
      exact ih i hi
    | resolveOp lg ci ni rng v s tol r hreach hok ih =>
      intro i _
      rw [spin_ok_record hok]
    | cancelOp lg sig r hreach hok ih =>
      rcases cancel_ok_inv hok with ⟨_, hrec, _⟩ | ⟨_, hrec, _⟩
      · intro i hi; rw [hrec]; exact ih i hi
      · intro i _; rw [hrec]
  exact ⟨hz, fun ck kk ci ni rng v s tol => spin_ne_borsh_error hz⟩

/-- Witness for C10: the freshly initialized record has a zero entry at
slot 50. -/
theorem c10_high_slots_zero_witness :
    initialize_guess_account.guesses (50 : Fin 64) = 0 :=
  (c10_high_slots_zero ⟨1, 1000, 10⟩ initialize_guess_account Reach.initOp).1
    (50 : Fin 64) (by decide)

end Oroucle
